import Mathlib

/-!
Verification of the proof-service registry in
`vendor/github.com/keybase/client/go/externals/services.go`.

The file embeds the two registries of that source file:

* `staticProofServices` — an immutable map from string key to service
  descriptor, populated once by `register`;
* `proofServices` — the same map plus a lazy refresh step
  (`loadParamProofServices`) run by every public operation, which
  conditionally fetches a remote entry, decodes it, validates each record
  and merges the resulting descriptors into the map.

Go maps are embedded as functions `String → Option ServiceType` (Go
returns the nil interface for a missing key, embedded as `none`).
External collaborators that are not part of the source file — the store
provider `GetLatestEntry`, the JSON decoder, the validating factory
`NewGenericSocialProofConfig` and the descriptor factory
`NewGenericSocialProofServiceType` — are parameters of the embedding,
collected in `RefreshCtx`.
-/

namespace Externals

/-- Model of Go `strings.ToLower` on a single character, restricted to the
ASCII range that service keys use: the letters `A`–`Z` (codepoints 65–90)
map to `a`–`z` (codepoint + 32); every other character is unchanged. -/
def lowerChar (c : Char) : Char :=
  if 65 ≤ c.toNat ∧ c.toNat ≤ 90 then Char.ofNat (c.toNat + 32) else c

/-- Model of Go `strings.ToLower`: lower-case every character. -/
def lowerStr (s : String) : String := ⟨s.data.map lowerChar⟩

/-- A service descriptor (`libkb.ServiceType`).  Only the parts this
registry inspects are modelled: the development-only flag
(`IsDevelOnly()`), the list of addressable aliases (`AllStringKeys()`),
and a tag distinguishing one descriptor value from another (standing in
for the rest of the interface). -/
structure ServiceType where
  isDevelOnly : Bool
  allStringKeys : List String
  tag : Nat
deriving DecidableEq

/-- The registry mapping, Go `map[string]libkb.ServiceType`; `none` is the
nil interface returned by Go for an absent key. -/
abbrev Collection := String → Option ServiceType

/-- A single Go map assignment `collection[k] = st`. -/
def update (c : Collection) (k : String) (st : ServiceType) : Collection :=
  fun s => if s = k then some st else c s

/-- Inner loop of `register`: `for _, k := range st.AllStringKeys() {
p.collection[k] = st }`.  Note the source stores each key verbatim — it
does not lower-case it. -/
def registerOne (c : Collection) (st : ServiceType) : Collection :=
  st.allStringKeys.foldl (fun acc k => update acc k st) c

/-- Embedding of `(p *staticProofServices).register` and the textually
identical `(p *proofServices).register`: each descriptor is skipped when
`!useDevelProofCheckers && st.IsDevelOnly()`, otherwise all of its keys
are assigned to it. -/
def register (useDevelProofCheckers : Bool) (c : Collection)
    (services : List ServiceType) : Collection :=
  services.foldl
    (fun acc st =>
      if !useDevelProofCheckers && st.isDevelOnly then acc else registerOne acc st)
    c

/-- A raw remote config record (`keybase1.ParamProofServiceConfig`): a
display name plus opaque provider-specific parameters. -/
structure ParamProofServiceConfig where
  displayName : String
  raw : Nat
deriving DecidableEq

/-- A validated config (`GenericSocialProofConfig`), produced by the
validating factory from a raw record. -/
structure GenericSocialProofConfig where
  config : ParamProofServiceConfig
deriving DecidableEq

/-- A store entry (`keybase1.MerkleStoreEntry`): the payload string. -/
structure MerkleStoreEntry where
  entry : String
deriving DecidableEq

/-- Run modes of `libkb`; `loadParamProofServices` only compares against
`DevelRunMode`. -/
inductive RunMode
  | devel
  | staging
  | production
deriving DecidableEq

/-- The slice of environment state read by `loadParamProofServices`:
`Env.GetFeatureFlags().Admin()`, `Env.GetRunMode()`, `Env.RunningInCI()`. -/
structure Env where
  adminFeatureFlag : Bool
  runMode : RunMode
  runningInCI : Bool

/-- External collaborators of one refresh attempt, not defined in the
source file and therefore parameters of the embedding:

* `getLatestEntry` — result of `GetParamProofStore().GetLatestEntry`
  (`none` models a fetch error);
* `unmarshal` — `json.Unmarshal` of the payload into the `services` list
  (`none` models a decode error);
* `validate` — Modelled from the spec: the validating factory
  `NewGenericSocialProofConfig`, absent from the sources, is the
  validated-factory function returning a usable config or a rejection
  (`none`);
* `build` — Modelled from the spec: the descriptor factory
  `NewGenericSocialProofServiceType`, absent from the sources, builds a
  descriptor from a validated config. -/
structure RefreshCtx where
  useDevelProofCheckers : Bool
  env : Env
  getLatestEntry : Option MerkleStoreEntry
  unmarshal : String → Option (List ParamProofServiceConfig)
  validate : ParamProofServiceConfig → Option GenericSocialProofConfig
  build : GenericSocialProofConfig → ServiceType

/-- Embedding of `(p *proofServices).parseServiceConfigs`: unmarshal the
payload (propagating a decode error), then validate each record
individually, skipping — never propagating — per-record failures. -/
def parseServiceConfigs (ctx : RefreshCtx) (e : MerkleStoreEntry) :
    Option (List GenericSocialProofConfig) :=
  match ctx.unmarshal e.entry with
  | none => none
  | some services => some (services.filterMap ctx.validate)

/-- The refresh policy read at the top of `loadParamProofServices`:
`Admin() || GetRunMode() == DevelRunMode || RunningInCI()`. -/
def shouldRun (env : Env) : Bool :=
  env.adminFeatureFlag || decide (env.runMode = RunMode.devel) || env.runningInCI

/-- Result of one refresh attempt: the mapping afterwards, plus the number
of `GetLatestEntry` calls the attempt made (0 or 1), so that theorems can
speak about whether the provider was contacted. -/
structure LoadResult where
  collection : Collection
  fetchCalls : Nat

/-- Embedding of `(p *proofServices).loadParamProofServices`: evaluate the
policy; if it holds, fetch (counted), decode, validate, and register the
built descriptors; every failure logs and returns the mapping unchanged. -/
def loadParamProofServices (ctx : RefreshCtx) (c : Collection) : LoadResult :=
  if shouldRun ctx.env = false then ⟨c, 0⟩
  else
    match ctx.getLatestEntry with
    | none => ⟨c, 1⟩
    | some entry =>
      match parseServiceConfigs ctx entry with
      | none => ⟨c, 1⟩
      | some serviceConfigs =>
        ⟨register ctx.useDevelProofCheckers c (serviceConfigs.map ctx.build), 1⟩

namespace staticProofServices

/-- Embedding of `(p *staticProofServices).GetServiceType`: look the
lower-cased key up; nil (`none`) when absent. -/
def GetServiceType (c : Collection) (s : String) : Option ServiceType :=
  c (lowerStr s)

/-- Embedding of `(p *staticProofServices).ListProofCheckers`.  The Go
method returns the map keys in unspecified order, so the returned key set
is embedded by its membership function. -/
def ListProofCheckers (c : Collection) : String → Bool :=
  fun k => (c k).isSome

end staticProofServices

namespace proofServices

/-- Embedding of `(p *proofServices).GetServiceType`: run the refresh step
under the lock, then look the lower-cased key up in the refreshed mapping.
The returned pair is the mapping after the call and the lookup result. -/
def GetServiceType (ctx : RefreshCtx) (c : Collection) (s : String) :
    Collection × Option ServiceType :=
  let r := loadParamProofServices ctx c
  (r.collection, r.collection (lowerStr s))

/-- Embedding of `(p *proofServices).ListProofCheckers`: run the refresh
step, then return the refreshed mapping and its key set (as a membership
function, since the Go method returns keys in unspecified order). -/
def ListProofCheckers (ctx : RefreshCtx) (c : Collection) :
    Collection × (String → Bool) :=
  let r := loadParamProofServices ctx c
  (r.collection, fun k => (r.collection k).isSome)

end proofServices

/-- A session: a sequence of public calls, each with its own environment
snapshot and provider response.  Returns the final mapping and the total
number of `GetLatestEntry` calls made across the session. -/
def runCalls (ctxs : List RefreshCtx) (c : Collection) : Collection × Nat :=
  ctxs.foldl
    (fun acc ctx =>
      let r := loadParamProofServices ctx acc.1
      (r.collection, acc.2 + r.fetchCalls))
    (c, 0)

/-- Boolean membership in a list of keys, written with propositional
string equality to match `update`. -/
def memStr : List String → String → Bool
  | [], _ => false
  | k0 :: rest, k => if k = k0 then true else memStr rest k

/-- A descriptor passes the development gate of `register` when it is not
skipped: the negation of `!useDevelProofCheckers && st.IsDevelOnly()`. -/
def gatePass (u : Bool) (st : ServiceType) : Bool :=
  !(!u && st.isDevelOnly)

/-- The last descriptor in the list that passes the gate and carries key
`k` — the one whose registration survives at `k`. -/
def lastHit (u : Bool) (k : String) : List ServiceType → Option ServiceType
  | [] => none
  | st :: rest =>
    match lastHit u k rest with
    | some st' => some st'
    | none => if gatePass u st && memStr st.allStringKeys k then some st else none

/-- Whether some descriptor in the list passes the gate and carries `k`. -/
def batchHasKey (u : Bool) (k : String) : List ServiceType → Bool
  | [] => false
  | st :: rest => (gatePass u st && memStr st.allStringKeys k) || batchHasKey u k rest

/-! ### Concrete fixtures for witnesses and counterexamples -/

/-- Environment in which the refresh policy holds (admin flag set). -/
def envOn : Env := ⟨true, RunMode.production, false⟩

/-- Environment in which all three policy conditions are false. -/
def envOff : Env := ⟨false, RunMode.production, false⟩

/-- The empty mapping. -/
def cEmpty : Collection := fun _ => none

/-- A raw remote record. -/
def cfgA : ParamProofServiceConfig := ⟨"A", 0⟩

/-- Another raw remote record. -/
def cfgB : ParamProofServiceConfig := ⟨"B", 1⟩

/-- A development-only descriptor carrying alias `y`. -/
def develDesc : ServiceType := ⟨true, ["y"], 1⟩

/-- A plain descriptor carrying alias `x`. -/
def plainDesc : ServiceType := ⟨false, ["x"], 2⟩

/-- A pre-existing descriptor at alias `y`. -/
def oldDesc : ServiceType := ⟨false, ["y"], 3⟩

/-- A remote descriptor carrying alias `y`. -/
def newDesc : ServiceType := ⟨false, ["y"], 4⟩

/-- A descriptor whose alias is stored with an upper-case letter. -/
def upDesc : ServiceType := ⟨false, ["X"], 5⟩

/-- A descriptor with the lower-case alias `x`. -/
def lowDesc : ServiceType := ⟨false, ["x"], 6⟩

/-- A development-only remote descriptor carrying alias `z`. -/
def develZ : ServiceType := ⟨true, ["z"], 7⟩

/-- A development-only descriptor carrying alias `x`. -/
def develX : ServiceType := ⟨true, ["x"], 8⟩

/-- A plain descriptor also carrying alias `x`. -/
def plainX : ServiceType := ⟨false, ["x"], 9⟩

/-- A development-only descriptor carrying alias `w`. -/
def develW : ServiceType := ⟨true, ["w"], 10⟩

/-- A plain descriptor also carrying alias `w`. -/
def plainW : ServiceType := ⟨false, ["w"], 11⟩

/-- A mapping holding `oldDesc` at key `y`. -/
def c0y : Collection := fun s => if s = "y" then some oldDesc else none

/-- Refresh context: policy on, fetch and decode succeed, the single
record validates, and the built descriptor is development-only. -/
def c1ctx : RefreshCtx :=
  ⟨false, envOn, some ⟨"payload"⟩, fun _ => some [cfgA],
    fun cfg => some ⟨cfg⟩, fun _ => develDesc⟩

/-- Refresh context: like `c1ctx` but the built descriptor is plain. -/
def c1wctx : RefreshCtx :=
  ⟨false, envOn, some ⟨"payload"⟩, fun _ => some [cfgA],
    fun cfg => some ⟨cfg⟩, fun _ => plainDesc⟩

/-- Refresh context whose validated record builds `newDesc` at alias `y`. -/
def c3wctx : RefreshCtx :=
  ⟨false, envOn, some ⟨"payload"⟩, fun _ => some [cfgA],
    fun cfg => some ⟨cfg⟩, fun _ => newDesc⟩

/-- Refresh context whose validated record builds the development-only
`develZ`. -/
def c6ctx : RefreshCtx :=
  ⟨false, envOn, some ⟨"q"⟩, fun _ => some [cfgB],
    fun cfg => some ⟨cfg⟩, fun _ => develZ⟩

/-- Refresh context with the policy off but a provider that would answer. -/
def ctxOff : RefreshCtx :=
  ⟨false, envOff, some ⟨"payload"⟩, fun _ => some [cfgA],
    fun cfg => some ⟨cfg⟩, fun _ => plainDesc⟩

/-- Refresh context whose fetch fails (`GetLatestEntry` error). -/
def c2ctx : RefreshCtx :=
  ⟨false, envOn, none, fun _ => some [cfgA],
    fun cfg => some ⟨cfg⟩, fun _ => plainDesc⟩

/-- Refresh context whose payload decodes but whose records all fail
validation. -/
def c10ctx : RefreshCtx :=
  ⟨false, envOn, some ⟨"payload"⟩, fun _ => some [cfgA],
    fun _ => none, fun _ => plainDesc⟩

/-! ### Characterization lemmas -/

theorem foldl_update_apply (st : ServiceType) (keys : List String) :
    ∀ (c : Collection) (k : String),
      keys.foldl (fun acc kk => update acc kk st) c k
        = if memStr keys k then some st else c k := by
  induction keys with
  | nil => intro c k; rfl
  | cons k0 rest ih =>
    intro c k
    show rest.foldl (fun acc kk => update acc kk st) (update c k0 st) k = _
    rw [ih]
    by_cases h0 : k = k0
    · subst h0
      by_cases hr : memStr rest k = true
      · simp [memStr, hr]
      · simp [memStr, hr, update]
    · by_cases hr : memStr rest k = true
      · simp [memStr, h0, hr]
      · simp [memStr, h0, hr, update]

theorem registerOne_apply (c : Collection) (st : ServiceType) (k : String) :
    registerOne c st k = if memStr st.allStringKeys k then some st else c k :=
  foldl_update_apply st st.allStringKeys c k

/-- Pointwise characterization of `register`: the binding at `k` is the
last gated descriptor carrying `k`, or the old binding when no descriptor
in the batch carries `k`. -/
theorem register_apply (u : Bool) (services : List ServiceType) :
    ∀ (c : Collection) (k : String),
      register u c services k =
        match lastHit u k services with
        | some st => some st
        | none => c k := by
  induction services with
  | nil => intro c k; rfl
  | cons st rest ih =>
    intro c k
    rw [show register u c (st :: rest)
          = register u (if !u && st.isDevelOnly then c else registerOne c st) rest from rfl,
        ih]
    cases h : lastHit u k rest with
    | some st' => simp [lastHit, h]
    | none =>
      simp only [lastHit, h]
      by_cases hd : (!u && st.isDevelOnly) = true
      · simp [hd, gatePass]
      · by_cases hm : memStr st.allStringKeys k = true
        · simp [hd, gatePass, hm, registerOne_apply]
        · simp [hd, gatePass, hm, registerOne_apply]

theorem lastHit_isSome (u : Bool) (k : String) (services : List ServiceType) :
    (lastHit u k services).isSome = batchHasKey u k services := by
  induction services with
  | nil => rfl
  | cons st rest ih =>
    cases h : lastHit u k rest with
    | some st' =>
      rw [h] at ih
      simp [lastHit, h, batchHasKey, ← ih]
    | none =>
      rw [h] at ih
      by_cases hg : (gatePass u st && memStr st.allStringKeys k) = true
      · simp [lastHit, h, batchHasKey, hg]
      · simp [lastHit, h, batchHasKey, hg, ← ih]

/-- A binding produced by `lastHit` comes from the batch, passes the gate,
and carries the key. -/
theorem lastHit_mem (u : Bool) (k : String) (services : List ServiceType)
    (st : ServiceType) (h : lastHit u k services = some st) :
    st ∈ services ∧ gatePass u st = true ∧ memStr st.allStringKeys k = true := by
  induction services with
  | nil => exact absurd h (by simp [lastHit])
  | cons st0 rest ih =>
    simp only [lastHit] at h
    cases h0 : lastHit u k rest with
    | some st' =>
      rw [h0] at h
      obtain ⟨h1, h2, h3⟩ := ih (h0.trans (by injection h with h; rw [h]))
      exact ⟨List.mem_cons_of_mem _ h1, h2, h3⟩
    | none =>
      rw [h0] at h
      by_cases hg : (gatePass u st0 && memStr st0.allStringKeys k) = true
      · rw [if_pos hg] at h
        injection h with h
        subst h
        rw [Bool.and_eq_true] at hg
        exact ⟨List.mem_cons_self _ _, hg.1, hg.2⟩
      · rw [if_neg hg] at h
        exact absurd h (by simp)

/-- Presence of a key after `register` is presence before, or presence in
the gated batch. -/
theorem register_isSome (u : Bool) (services : List ServiceType)
    (c : Collection) (k : String) :
    (register u c services k).isSome
      = ((c k).isSome || batchHasKey u k services) := by
  rw [register_apply]
  cases h : lastHit u k services with
  | some st =>
    have := lastHit_isSome u k services
    rw [h] at this
    simp [← this]
  | none =>
    have := lastHit_isSome u k services
    rw [h] at this
    simp [← this]

/-- When the policy is false the refresh step returns at once: no fetch,
mapping untouched. -/
theorem load_policyFalse (ctx : RefreshCtx) (c : Collection)
    (h : shouldRun ctx.env = false) :
    loadParamProofServices ctx c = ⟨c, 0⟩ := by
  simp [loadParamProofServices, h]

/-- The refresh step calls the provider exactly when the policy holds. -/
theorem load_fetchCalls (ctx : RefreshCtx) (c : Collection) :
    (loadParamProofServices ctx c).fetchCalls
      = if shouldRun ctx.env then 1 else 0 := by
  unfold loadParamProofServices
  by_cases h : shouldRun ctx.env = false
  · simp [h]
  · rw [if_neg h, if_pos (show shouldRun ctx.env = true by
      revert h; cases shouldRun ctx.env <;> simp)]
    cases he : ctx.getLatestEntry with
    | none => simp
    | some e => cases hp : parseServiceConfigs ctx e <;> simp [hp]

/-- A fetch error or a decode error leaves the mapping unchanged. -/
theorem load_fail_frame (ctx : RefreshCtx) (c : Collection)
    (h : ∀ e, ctx.getLatestEntry = some e → ctx.unmarshal e.entry = none) :
    (loadParamProofServices ctx c).collection = c := by
  unfold loadParamProofServices
  by_cases hs : shouldRun ctx.env = false
  · simp [hs]
  · rw [if_neg hs]
    cases he : ctx.getLatestEntry with
    | none => rfl
    | some e =>
      have hp : parseServiceConfigs ctx e = none := by
        unfold parseServiceConfigs
        rw [h e he]
      simp [hp]

/-- A refresh whose fetch and decode succeed registers the descriptors
built from the validated records. -/
theorem load_success (ctx : RefreshCtx) (c : Collection)
    (e : MerkleStoreEntry) (configs : List ParamProofServiceConfig)
    (hs : shouldRun ctx.env = true) (he : ctx.getLatestEntry = some e)
    (hu : ctx.unmarshal e.entry = some configs) :
    loadParamProofServices ctx c
      = ⟨register ctx.useDevelProofCheckers c
            ((configs.filterMap ctx.validate).map ctx.build), 1⟩ := by
  have hp : parseServiceConfigs ctx e = some (configs.filterMap ctx.validate) := by
    unfold parseServiceConfigs
    rw [hu]
  unfold loadParamProofServices
  rw [if_neg (by rw [hs]; simp), he]
  simp [hp]

/-- Reading a valid codepoint back from `Char.ofNat`. -/
theorem toNat_ofNat_valid (n : Nat) (h : n.isValidChar) :
    (Char.ofNat n).toNat = n := by
  unfold Char.ofNat
  rw [dif_pos h]
  rfl

/-- Lower-casing a character twice is the same as once. -/
theorem lowerChar_idem (c : Char) : lowerChar (lowerChar c) = lowerChar c := by
  unfold lowerChar
  by_cases h : 65 ≤ c.toNat ∧ c.toNat ≤ 90
  · rw [if_pos h]
    have hv : (c.toNat + 32).isValidChar := Or.inl (by omega)
    rw [toNat_ofNat_valid _ hv]
    rw [if_neg (by omega)]
  · rw [if_neg h, if_neg h]

/-- Lower-casing a string twice is the same as once. -/
theorem lowerStr_idem (s : String) : lowerStr (lowerStr s) = lowerStr s := by
  unfold lowerStr
  simp only [List.map_map, Function.comp_def, lowerChar_idem]

/-- A gated descriptor in the batch that carries `k` makes
`batchHasKey` true. -/
theorem batchHasKey_of_mem (u : Bool) (k : String)
    (services : List ServiceType) (st : ServiceType)
    (h1 : st ∈ services) (h2 : gatePass u st = true)
    (h3 : memStr st.allStringKeys k = true) :
    batchHasKey u k services = true := by
  induction services with
  | nil => cases h1
  | cons st0 rest ih =>
    rcases List.mem_cons.1 h1 with h0 | h0
    · subst h0
      simp [batchHasKey, h2, h3]
    · simp [batchHasKey, ih h0]

/-! ### Claims -/

/-- C2: for every registry state, if the refresh step fails at the fetch
stage (`GetLatestEntry` returns an error, embedded as `none`) or at the
decode stage (the payload fails to unmarshal), then `GetServiceType` and
`ListProofCheckers` surface no error — their results are ordinary values
of the same shape as in the static registry — and the mapping after the
call equals the mapping before the call. -/
theorem c2_refresh_failure_frame (ctx : RefreshCtx) (c : Collection) (s : String)
    (h : ∀ e, ctx.getLatestEntry = some e → ctx.unmarshal e.entry = none) :
    (loadParamProofServices ctx c).collection = c
    ∧ proofServices.GetServiceType ctx c s
        = (c, staticProofServices.GetServiceType c s)
    ∧ proofServices.ListProofCheckers ctx c
        = (c, staticProofServices.ListProofCheckers c) := by
  have hc := load_fail_frame ctx c h
  refine ⟨hc, ?_, ?_⟩
  · exact congrArg
      (fun m : Collection => ((m, m (lowerStr s)) : Collection × Option ServiceType)) hc
  · exact congrArg
      (fun m : Collection =>
        ((m, fun k => (m k).isSome) : Collection × (String → Bool))) hc

/-- Witness for C2 at a fetch-error context. -/
theorem c2_refresh_failure_frame_witness :
    (∀ e, c2ctx.getLatestEntry = some e → c2ctx.unmarshal e.entry = none)
    ∧ proofServices.GetServiceType c2ctx cEmpty "x"
        = (cEmpty, staticProofServices.GetServiceType cEmpty "x") :=
  ⟨by intro e he; simp [c2ctx] at he,
   (c2_refresh_failure_frame c2ctx cEmpty "x"
      (by intro e he; simp [c2ctx] at he)).2.1⟩

/-- C4: the refresh step attempts a fetch if and only if one of the three
policy conditions holds (admin feature flag, development run mode, CI);
when all three are false, the public operations make no provider call
(`fetchCalls = 0` in the returned `LoadResult`) and leave the mapping
unchanged. -/
theorem c4_policy_gate (ctx : RefreshCtx) (c : Collection) (s : String) :
    ((loadParamProofServices ctx c).fetchCalls = 1
        ↔ (ctx.env.adminFeatureFlag
            || decide (ctx.env.runMode = RunMode.devel)
            || ctx.env.runningInCI) = true)
    ∧ (shouldRun ctx.env = false →
        loadParamProofServices ctx c = ⟨c, 0⟩
        ∧ proofServices.GetServiceType ctx c s
            = (c, staticProofServices.GetServiceType c s)
        ∧ proofServices.ListProofCheckers ctx c
            = (c, staticProofServices.ListProofCheckers c)) := by
  constructor
  · have hdef : shouldRun ctx.env
        = (ctx.env.adminFeatureFlag
            || decide (ctx.env.runMode = RunMode.devel)
            || ctx.env.runningInCI) := rfl
    rw [load_fetchCalls, ← hdef]
    cases h : shouldRun ctx.env <;> simp [h]
  · intro h
    have h0 := load_policyFalse ctx c h
    have hc : (loadParamProofServices ctx c).collection = c := by rw [h0]
    refine ⟨h0, ?_, ?_⟩
    · exact congrArg
        (fun m : Collection => ((m, m (lowerStr s)) : Collection × Option ServiceType)) hc
    · exact congrArg
        (fun m : Collection =>
          ((m, fun k => (m k).isSome) : Collection × (String → Bool))) hc

/-- Witness for C4 with all three policy conditions false. -/
theorem c4_policy_gate_witness :
    shouldRun envOff = false
    ∧ loadParamProofServices ctxOff cEmpty = ⟨cEmpty, 0⟩ :=
  ⟨rfl, ((c4_policy_gate ctxOff cEmpty "x").2 rfl).1⟩

/-- C8: there is no once-per-session guard (the `loaded` field of
`proofServices` is declared but never read): over any sequence of calls,
the number of `GetLatestEntry` invocations equals the number of calls at
which the policy evaluated true — one fresh fetch per eligible call,
independent of the registry state and of earlier outcomes. -/
theorem c8_fetch_per_call (ctxs : List RefreshCtx) (c : Collection) :
    (runCalls ctxs c).2 = ctxs.countP (fun ctx => shouldRun ctx.env) := by
  have aux : ∀ (l : List RefreshCtx) (p : Collection × Nat),
      (l.foldl (fun acc ctx =>
        let r := loadParamProofServices ctx acc.1
        (r.collection, acc.2 + r.fetchCalls)) p).2
        = p.2 + l.countP (fun ctx => shouldRun ctx.env) := by
    intro l
    induction l with
    | nil => intro p; simp
    | cons ctx rest ih =>
      intro p
      rw [List.foldl_cons, ih]
      simp only [load_fetchCalls, List.countP_cons]
      by_cases h : shouldRun ctx.env = true
      · simp only [h, if_true]
        omega
      · simp only [h, if_false]
        omega
  exact (aux ctxs (c, 0)).trans (by omega)

/-- C9: lookup is total: for a key whose lower-cased form is absent from
the consulted mapping, both the static `GetServiceType` and the dynamic
one return the nil descriptor (`none`) rather than an error, and in
general both return exactly the mapping entry at the lower-cased key. -/
theorem c9_lookup_total (c : Collection) (ctx : RefreshCtx) (s : String)
    (h1 : c (lowerStr s) = none)
    (h2 : (loadParamProofServices ctx c).collection (lowerStr s) = none) :
    staticProofServices.GetServiceType c s = c (lowerStr s)
    ∧ staticProofServices.GetServiceType c s = none
    ∧ (proofServices.GetServiceType ctx c s).2
        = (loadParamProofServices ctx c).collection (lowerStr s)
    ∧ (proofServices.GetServiceType ctx c s).2 = none :=
  ⟨rfl, h1, rfl, h2⟩

/-- Witness for C9 at an unknown key. -/
theorem c9_lookup_total_witness :
    cEmpty (lowerStr "nope") = none
    ∧ staticProofServices.GetServiceType cEmpty "nope" = none
    ∧ (proofServices.GetServiceType ctxOff cEmpty "nope").2 = none :=
  ⟨rfl,
   (c9_lookup_total cEmpty ctxOff "nope" rfl rfl).2.1,
   (c9_lookup_total cEmpty ctxOff "nope" rfl rfl).2.2.2⟩

/-- C10: a payload that decodes but whose records all fail validation
yields `some []` (empty list, nil error) from `parseServiceConfigs`, so
the refresh does not enter the decode-failure branch, leaves the mapping
unchanged, and is indistinguishable at the public interface from a
payload holding an empty services list. -/
theorem c10_all_invalid_batch (ctx : RefreshCtx) (c : Collection)
    (e : MerkleStoreEntry) (configs : List ParamProofServiceConfig)
    (he : ctx.getLatestEntry = some e)
    (hu : ctx.unmarshal e.entry = some configs)
    (hv : ∀ cfg ∈ configs, ctx.validate cfg = none) :
    parseServiceConfigs ctx e = some []
    ∧ (loadParamProofServices ctx c).collection = c
    ∧ loadParamProofServices ctx c
        = loadParamProofServices { ctx with unmarshal := fun _ => some [] } c := by
  have hf : configs.filterMap ctx.validate = [] := List.filterMap_eq_nil_iff.2 hv
  have hp : parseServiceConfigs ctx e = some [] := by
    unfold parseServiceConfigs
    rw [hu]
    simp [hf]
  refine ⟨hp, ?_, ?_⟩
  · by_cases hs : shouldRun ctx.env = true
    · rw [load_success ctx c e configs hs he hu, hf]
      rfl
    · have hs' : shouldRun ctx.env = false := by
        revert hs
        cases shouldRun ctx.env <;> simp
      rw [load_policyFalse ctx c hs']
  · by_cases hs : shouldRun ctx.env = true
    · rw [load_success ctx c e configs hs he hu, hf,
        load_success { ctx with unmarshal := fun _ => some [] } c e [] hs (by simp [he]) rfl]
      rfl
    · have hs' : shouldRun ctx.env = false := by
        revert hs
        cases shouldRun ctx.env <;> simp
      rw [load_policyFalse ctx c hs',
        load_policyFalse { ctx with unmarshal := fun _ => some [] } c hs']

/-- Witness for C10 at an all-invalid batch. -/
theorem c10_all_invalid_batch_witness :
    (∀ cfg ∈ [cfgA], c10ctx.validate cfg = none)
    ∧ parseServiceConfigs c10ctx ⟨"payload"⟩ = some []
    ∧ (loadParamProofServices c10ctx cEmpty).collection = cEmpty :=
  ⟨by intro cfg hm; rfl,
   (c10_all_invalid_batch c10ctx cEmpty ⟨"payload"⟩ [cfgA] rfl rfl
      (by intro cfg hm; rfl)).1,
   (c10_all_invalid_batch c10ctx cEmpty ⟨"payload"⟩ [cfgA] rfl rfl
      (by intro cfg hm; rfl)).2.1⟩

/-- C1 counterexample: with `c1ctx` the payload decodes and its single
record validates (N = M = 1), and the validated record's descriptor
carries alias `y`, yet after the refresh `ListProofCheckers` on the empty
pre-state does not contain `y`: the key set is not the pre-refresh keys
plus the keys of the N validated records, because `register` applies the
development-only gate to remote descriptors as well. -/
theorem c1_refresh_keys_counterexample :
    parseServiceConfigs c1ctx ⟨"payload"⟩ = some [⟨cfgA⟩]
    ∧ (c1ctx.build ⟨cfgA⟩).allStringKeys = ["y"]
    ∧ (proofServices.ListProofCheckers c1ctx cEmpty).2 "y" = false := by
  decide

/-- C1 (amended): after a refresh whose fetch and decode succeed, the key
set of `ListProofCheckers` is exactly the pre-refresh keys plus the alias
keys of those validated records whose built descriptors pass the
development-only gate; records that fail validation contribute no keys
and do not prevent the other records from being validated and
registered. -/
theorem c1_refresh_keys (ctx : RefreshCtx) (c : Collection)
    (e : MerkleStoreEntry) (configs : List ParamProofServiceConfig)
    (hs : shouldRun ctx.env = true)
    (he : ctx.getLatestEntry = some e)
    (hu : ctx.unmarshal e.entry = some configs) :
    ∀ k, (proofServices.ListProofCheckers ctx c).2 k
      = ((c k).isSome
          || batchHasKey ctx.useDevelProofCheckers k
              ((configs.filterMap ctx.validate).map ctx.build)) := by
  intro k
  have hl := load_success ctx c e configs hs he hu
  show ((loadParamProofServices ctx c).collection k).isSome = _
  rw [hl]
  exact register_isSome _ _ _ _

/-- Witness for C1 (amended): one validated plain record adds its key. -/
theorem c1_refresh_keys_witness :
    shouldRun c1wctx.env = true
    ∧ (proofServices.ListProofCheckers c1wctx cEmpty).2 "x" = true :=
  ⟨rfl, c1_refresh_keys c1wctx cEmpty ⟨"payload"⟩ [cfgA] rfl rfl rfl "x"⟩

/-- C3 counterexample: alias `y` is present before the refresh (bound to
`oldDesc`), the refresh validates a record whose descriptor carries `y`,
yet `GetServiceType` on `y` afterwards still returns `oldDesc`, not the
descriptor built from the remote record: a development-only remote
descriptor is skipped by `register`, so the remote record does not win. -/
theorem c3_overwrite_counterexample :
    c0y "y" = some oldDesc
    ∧ parseServiceConfigs c1ctx ⟨"payload"⟩ = some [⟨cfgA⟩]
    ∧ (c1ctx.build ⟨cfgA⟩).allStringKeys = ["y"]
    ∧ (proofServices.GetServiceType c1ctx c0y "y").2 = some oldDesc
    ∧ c1ctx.build ⟨cfgA⟩ ≠ oldDesc := by
  decide

/-- C3 (amended): after a refresh whose fetch and decode succeed, if the
last validated record in the batch whose built descriptor passes the
development-only gate and carries alias `k` builds descriptor `st`
(`lastHit … = some st`), then the mapping at `k` is `st` — the remote
record wins over whatever was present, static or remote, and later
records overwrite earlier ones within the batch — and `GetServiceType`
returns `st` for every query whose lower-cased form is `k`. -/
theorem c3_overwrite (ctx : RefreshCtx) (c : Collection)
    (e : MerkleStoreEntry) (configs : List ParamProofServiceConfig)
    (k : String) (st : ServiceType)
    (hs : shouldRun ctx.env = true)
    (he : ctx.getLatestEntry = some e)
    (hu : ctx.unmarshal e.entry = some configs)
    (hl : lastHit ctx.useDevelProofCheckers k
            ((configs.filterMap ctx.validate).map ctx.build) = some st) :
    (loadParamProofServices ctx c).collection k = some st
    ∧ ∀ s, lowerStr s = k → (proofServices.GetServiceType ctx c s).2 = some st := by
  have h2 := load_success ctx c e configs hs he hu
  have hreg : (loadParamProofServices ctx c).collection k = some st := by
    rw [h2]
    exact (register_apply _ _ _ _).trans (by rw [hl])
  refine ⟨hreg, ?_⟩
  intro s hsk
  show (loadParamProofServices ctx c).collection (lowerStr s) = some st
  rw [hsk]
  exact hreg

/-- Witness for C3 (amended): a plain remote descriptor at `y` replaces
`oldDesc`. -/
theorem c3_overwrite_witness :
    lastHit false "y" [newDesc] = some newDesc
    ∧ c0y "y" = some oldDesc
    ∧ (proofServices.GetServiceType c3wctx c0y "y").2 = some newDesc :=
  ⟨by decide, rfl,
   (c3_overwrite c3wctx c0y ⟨"payload"⟩ [cfgA] "y" newDesc rfl rfl rfl
      (by decide)).2 "y" (by decide)⟩

/-- C5 counterexample: `register` stores alias keys verbatim, not
lower-cased: a builtin whose alias is `X` is stored under `X` (not under
`x`), and since `GetServiceType` lower-cases its query, looking the alias
up — in the very case it was registered under — returns nothing. -/
theorem c5_case_insensitive_counterexample :
    upDesc.allStringKeys = ["X"]
    ∧ register false cEmpty [upDesc] "x" = none
    ∧ register false cEmpty [upDesc] "X" = some upDesc
    ∧ staticProofServices.GetServiceType (register false cEmpty [upDesc]) "X" = none := by
  decide

/-- C5 (amended): alias keys are stored verbatim, and lookup lower-cases
only the query.  Hence for a descriptor registered at a key `k` that is
the lower-cased form of the query, lookup in any letter case returns the
descriptor; and for every string `t`, `GetServiceType t` equals
`GetServiceType (lowerStr t)`. -/
theorem c5_case_insensitive (c : Collection) (u : Bool)
    (services : List ServiceType) (k : String) (st : ServiceType) (s : String)
    (hlast : lastHit u k services = some st)
    (hk : lowerStr s = k) :
    staticProofServices.GetServiceType (register u c services) s = some st
    ∧ ∀ t, staticProofServices.GetServiceType c t
        = staticProofServices.GetServiceType c (lowerStr t) := by
  constructor
  · show register u c services (lowerStr s) = some st
    rw [hk]
    exact (register_apply _ _ _ _).trans (by rw [hlast])
  · intro t
    show c (lowerStr t) = c (lowerStr (lowerStr t))
    rw [lowerStr_idem]

/-- Witness for C5 (amended): a lower-case alias is found under any
letter case. -/
theorem c5_case_insensitive_witness :
    lastHit false "x" [lowDesc] = some lowDesc
    ∧ lowerStr "X" = "x"
    ∧ staticProofServices.GetServiceType (register false cEmpty [lowDesc]) "X"
        = some lowDesc :=
  ⟨by decide, by decide,
   (c5_case_insensitive cEmpty false [lowDesc] "x" lowDesc "X"
      (by decide) (by decide)).1⟩

/-- C6 counterexample: a record that validates successfully but whose
built descriptor is development-only is not registered when
`useDevelProofCheckers` is false — registration is not independent of the
properties of the descriptor. -/
theorem c6_register_validated_counterexample :
    parseServiceConfigs c6ctx ⟨"q"⟩ = some [⟨cfgB⟩]
    ∧ (c6ctx.build ⟨cfgB⟩).allStringKeys = ["z"]
    ∧ (c6ctx.build ⟨cfgB⟩).isDevelOnly = true
    ∧ (loadParamProofServices c6ctx cEmpty).collection "z" = none := by
  decide

/-- C6 (amended): after a refresh whose fetch and decode succeed, the
mapping is exactly `register` — the same function used for builtin
registration, with identical overwrite and development-gate semantics —
applied to the descriptors built from the validated records; in
particular every validated descriptor that passes the development-only
gate has all of its alias keys present afterwards. -/
theorem c6_register_validated (ctx : RefreshCtx) (c : Collection)
    (e : MerkleStoreEntry) (configs : List ParamProofServiceConfig)
    (hs : shouldRun ctx.env = true)
    (he : ctx.getLatestEntry = some e)
    (hu : ctx.unmarshal e.entry = some configs) :
    (loadParamProofServices ctx c).collection
      = register ctx.useDevelProofCheckers c
          ((configs.filterMap ctx.validate).map ctx.build)
    ∧ ∀ st ∈ (configs.filterMap ctx.validate).map ctx.build,
        gatePass ctx.useDevelProofCheckers st = true →
        ∀ k, memStr st.allStringKeys k = true →
          ((loadParamProofServices ctx c).collection k).isSome = true := by
  have h2 := load_success ctx c e configs hs he hu
  have hcol : (loadParamProofServices ctx c).collection
      = register ctx.useDevelProofCheckers c
          ((configs.filterMap ctx.validate).map ctx.build) := by
    rw [h2]
  refine ⟨hcol, ?_⟩
  intro st hm hg k hk
  rw [hcol, register_isSome, batchHasKey_of_mem _ _ _ _ hm hg hk]
  exact Bool.or_true _

/-- Witness for C6 (amended): a validated plain descriptor has its key
registered. -/
theorem c6_register_validated_witness :
    gatePass false plainDesc = true
    ∧ ((loadParamProofServices c1wctx cEmpty).collection "x").isSome = true :=
  ⟨rfl,
   (c6_register_validated c1wctx cEmpty ⟨"payload"⟩ [cfgA] rfl rfl rfl).2
     plainDesc (by decide) rfl "x" (by decide)⟩

/-- C7 counterexample: with the development flag off, a development-only
builtin sharing alias `x` with a plain builtin is skipped, yet `x` still
appears in `ListProofCheckers` and resolves via `GetServiceType` — so it
is not true that none of the skipped descriptor alias keys appear in the
output. -/
theorem c7_develonly_counterexample :
    develX.isDevelOnly = true
    ∧ develX.allStringKeys = ["x"]
    ∧ staticProofServices.ListProofCheckers
        (register false cEmpty [develX, plainX]) "x" = true
    ∧ staticProofServices.GetServiceType
        (register false cEmpty [develX, plainX]) "x" = some plainX := by
  decide

/-- C7 (amended): with the development flag off, a development-only
descriptor is skipped entirely at registration — no key is ever mapped to
it (its aliases can appear only on behalf of another registered
descriptor) — and any descriptor passing the development gate (in
particular every descriptor when the flag is on) has all of its alias
keys present in `ListProofCheckers`. -/
theorem c7_develonly (u : Bool) (c : Collection) (services : List ServiceType)
    (st : ServiceType) :
    (st.isDevelOnly = true → u = false → (∀ k, c k ≠ some st) →
      ∀ k, register u c services k ≠ some st)
    ∧ (st ∈ services → gatePass u st = true →
      ∀ k, memStr st.allStringKeys k = true →
        staticProofServices.ListProofCheckers (register u c services) k = true) := by
  constructor
  · intro hd hu hc k hcontra
    have happ := register_apply u services c k
    cases hlast : lastHit u k services with
    | some st' =>
      rw [hlast] at happ
      have happ2 : register u c services k = some st' := happ
      rw [happ2] at hcontra
      injection hcontra with h'
      subst h'
      obtain ⟨-, hg, -⟩ := lastHit_mem u k services st' hlast
      rw [hu] at hg
      simp [gatePass, hd] at hg
    | none =>
      rw [hlast] at happ
      have happ2 : register u c services k = c k := happ
      rw [happ2] at hcontra
      exact hc k hcontra
  · intro hm hg k hk
    show (register u c services k).isSome = true
    rw [register_isSome, batchHasKey_of_mem u k services st hm hg hk]
    exact Bool.or_true _

/-- Witness for C7 (amended): the skipped development-only builtin is
never the stored value, while a plain builtin with the same alias is
present. -/
theorem c7_develonly_witness :
    develW.isDevelOnly = true
    ∧ register false cEmpty [develW, plainW] "w" ≠ some develW
    ∧ staticProofServices.ListProofCheckers
        (register false cEmpty [develW, plainW]) "w" = true :=
  ⟨rfl,
   (c7_develonly false cEmpty [develW, plainW] develW).1 rfl rfl
      (by intro k h; simp [cEmpty] at h) "w",
   (c7_develonly false cEmpty [develW, plainW] plainW).2 (by decide) rfl "w"
      (by decide)⟩

end Externals
